import Mathlib

/-!
Verification development for the Kalshi dashboard data pipeline
(`fetch_data.py`).  The Python source is shallowly embedded: pure
functions become Lean functions, Python floats on the money path are
modelled as exact rationals (`ℚ`), Python `round(x, n)` as round-half-even
on rationals, Python strings as Lean `String` (lists of characters), and
fallible parsing as `Option`.
-/

namespace KalshiDash

/-- Money values (`cost`, `payout`, `profit`, rates) are modelled as `ℚ`. -/
abbrev Money := ℚ

/-! ## Rounding: Python `round` (banker's rounding, round-half-even) -/

/-- Round-half-even to the nearest integer, as Python `round(q)` on exact
values: nearest integer, ties to the even neighbour. -/
def rhe (q : ℚ) : ℤ :=
  let f : ℤ := ⌊q⌋
  let r : ℚ := q - f
  if r < 1/2 then f
  else if 1/2 < r then f + 1
  else if f % 2 = 0 then f else f + 1

/-- Python `round(q, 2)`. -/
def round2 (q : ℚ) : ℚ := (rhe (q * 100) : ℚ) / 100

/-- Python `round(q, 1)`. -/
def round1 (q : ℚ) : ℚ := (rhe (q * 10) : ℚ) / 10

/-! ## String utilities (Python `in`, `.upper()`, `.lower()`, comparison) -/

/-- Is the first list a prefix of the second (character-exact)? -/
def listStartsWith : List Char → List Char → Bool
  | [], _ => true
  | _ :: _, [] => false
  | a :: as, b :: bs => a = b && listStartsWith as bs

/-- Python `needle in hay` on the underlying character lists. -/
def hasSub (needle : List Char) : List Char → Bool
  | [] => needle.isEmpty
  | c :: t => listStartsWith needle (c :: t) || hasSub needle t

/-- Python substring test `needle in hay`. -/
def strContains (hay needle : String) : Bool := hasSub needle.toList hay.toList

/-- Python `str.upper()` (tickers and keywords are ASCII). -/
def upStr (s : String) : String := String.mk (s.toList.map Char.toUpper)

/-- Python `str.lower()` (statuses, results and sides are ASCII). -/
def lowerStr (s : String) : String := String.mk (s.toList.map Char.toLower)

/-- Lexicographic `≤` on character lists: Python string comparison. -/
def charListLe : List Char → List Char → Bool
  | [], _ => true
  | _ :: _, [] => false
  | a :: as, b :: bs => if a = b then charListLe as bs else decide (a < b)

/-- Python `s <= t` on strings. -/
def strLe (s t : String) : Bool := charListLe s.toList t.toList

/-! ## `categorize_sport` (fetch_data.py lines 85–116) -/

def parlayKeywords : List String :=
  ["PARLAY", "BUNDLE", "MULTIGAME", "MULTI", "COMBO"]

def propKeywords : List String :=
  ["GOAL", "POINT", "ASSIST", "REBOUND", "TOUCHDOWN",
   "YARD", "RECEPTION", "RUSH", "PASS", "HIT", "RBI",
   "STRIKEOUT", "SAVE", "SHOT", "ESPORTS", "GAMING", "PLAYER"]

/-- Python `any(kw in tu for kw in kws)`. -/
def anyKw (tu : String) (kws : List String) : Bool :=
  kws.any (fun k => strContains tu k)

/-- Python `categorize_sport`: determine sport from ticker, first matching rule in
precedence order wins. -/
def categorize_sport (ticker : String) : String :=
  let tu := upStr ticker
  if anyKw tu parlayKeywords then "Parlays"
  else if anyKw tu propKeywords then "Prop Bets"
  else if strContains tu "NHL" then "NHL"
  else if strContains tu "NFL" then "NFL"
  else if strContains tu "NBA" then "NBA"
  else if strContains tu "MLB" then "MLB"
  else if strContains tu "NCAAF" || strContains tu "CFB" then "College Football"
  else if strContains tu "NCAAB" || strContains tu "CBB" then "College Basketball"
  else if strContains tu "SOCCER" || strContains tu "EPL" || strContains tu "PREMIER" then "Soccer"
  else if strContains tu "UFC" || strContains tu "MMA" || strContains tu "FIGHT" then "UFC/MMA"
  else if strContains tu "PGA" || strContains tu "GOLF" then "Golf"
  else "Other"

/-- The fixed list of category labels from the spec. -/
def categoryLabels : List String :=
  ["Parlays", "Prop Bets", "NHL", "NFL", "NBA", "MLB", "College Football",
   "College Basketball", "Soccer", "UFC/MMA", "Golf", "Other"]

/-- All keyword tests used by `categorize_sport`, in one list: a ticker
matching none of them falls through every branch. -/
def allKeywords : List String :=
  parlayKeywords ++ propKeywords ++
  ["NHL", "NFL", "NBA", "MLB", "NCAAF", "CFB", "NCAAB", "CBB",
   "SOCCER", "EPL", "PREMIER", "UFC", "MMA", "FIGHT", "PGA", "GOLF"]

/-! ## Datetime model (Python `datetime`) -/

/-- A parsed Python `datetime`: `tzOffsetMinutes = none` models a naive
datetime, `some m` a fixed UTC offset of `m` minutes. -/
structure PyDateTime where
  year : Nat
  month : Nat
  day : Nat
  hour : Nat
  minute : Nat
  second : Nat
  microsecond : Nat
  tzOffsetMinutes : Option Int
deriving DecidableEq, Repr

def isLeap (y : Nat) : Bool := y % 4 = 0 && (y % 100 ≠ 0 || y % 400 = 0)

def daysInMonth (y m : Nat) : Nat :=
  if m = 2 then (if isLeap y then 29 else 28)
  else if m = 4 || m = 6 || m = 9 || m = 11 then 30
  else 31

/-- Days in months strictly before month `m` of year `y`. -/
def daysBeforeMonth (y m : Nat) : Nat :=
  (List.range (m - 1)).foldl (fun acc i => acc + daysInMonth y (i + 1)) 0

/-- Proleptic-Gregorian ordinal (Python `date.toordinal`, day 1 = 0001-01-01). -/
def toOrdinal (y m d : Nat) : Nat :=
  365 * (y - 1) + ((y - 1) / 4 - (y - 1) / 100 + (y - 1) / 400) +
    daysBeforeMonth y m + d

/-- Instant of an (aware-or-naive) datetime in microseconds since the Unix
epoch, treating a naive datetime as UTC (the recency filter does
`dt.replace(tzinfo=timezone.utc)` in exactly that case). -/
def PyDateTime.instantUs (dt : PyDateTime) : Int :=
  ((toOrdinal dt.year dt.month dt.day : Int) - 719163) * 86400000000 +
    ((dt.hour * 3600 + dt.minute * 60 + dt.second : Nat) : Int) * 1000000 +
    (dt.microsecond : Int) - (dt.tzOffsetMinutes.getD 0) * 60000000

/-! ## `datetime.fromisoformat` (modelled external library call)

The source delegates parsing to the standard library's
`datetime.fromisoformat`.  We model it for the ISO-8601 forms the
pipeline feeds it: `YYYY-MM-DD[THH:MM[:SS[.ffffff]]][+HH:MM|-HH:MM]`,
with range validation; any other input yields `none` (the Python
`ValueError` absorbed by the caller's `except`). -/

/-- Parse exactly `n` leading decimal digits; return value and rest. -/
def parseDigits (n : Nat) (cs : List Char) : Option (Nat × List Char) :=
  let pre := cs.take n
  if pre.length = n && pre.all Char.isDigit then
    some (pre.foldl (fun a c => a * 10 + (c.toNat - 48)) 0, cs.drop n)
  else none

def expectChar (c : Char) : List Char → Option (List Char)
  | [] => none
  | a :: t => if a = c then some t else none

/-- Parse an optional fractional-second field `.d{1..6}` (digits padded
right with zeros to microseconds). -/
def parseFrac : List Char → Option (Nat × List Char)
  | '.' :: rest =>
      let ds := rest.takeWhile Char.isDigit
      if ds.length = 0 || 6 < ds.length then none
      else
        let padded := ds ++ List.replicate (6 - ds.length) '0'
        some (padded.foldl (fun a c => a * 10 + (c.toNat - 48)) 0,
              rest.dropWhile Char.isDigit)
  | cs => some (0, cs)

/-- Parse an optional UTC offset `+HH:MM` / `-HH:MM` (must end the input). -/
def parseTzTail : List Char → Option (Option Int)
  | [] => some none
  | c :: rest =>
      if c = '+' || c = '-' then
        match parseDigits 2 rest with
        | some (hh, rest) =>
            match expectChar ':' rest with
            | some rest =>
                match parseDigits 2 rest with
                | some (mm, rest) =>
                    if rest.isEmpty && hh ≤ 23 && mm ≤ 59 then
                      let total : Int := (hh : Int) * 60 + (mm : Int)
                      some (some (if c = '-' then -total else total))
                    else none
                | none => none
            | none => none
        | none => none
      else none

/-- Parse the `HH:MM[:SS[.ffffff]][tz]` time part (must consume the input). -/
def parseTimeTail (cs : List Char) : Option (Nat × Nat × Nat × Nat × Option Int) :=
  match parseDigits 2 cs with
  | none => none
  | some (hh, cs) =>
    match expectChar ':' cs with
    | none => none
    | some cs =>
      match parseDigits 2 cs with
      | none => none
      | some (mi, cs) =>
        match cs with
        | ':' :: cs =>
            match parseDigits 2 cs with
            | none => none
            | some (ss, cs) =>
              match parseFrac cs with
              | none => none
              | some (us, cs) =>
                match parseTzTail cs with
                | none => none
                | some tz => some (hh, mi, ss, us, tz)
        | cs =>
            match parseTzTail cs with
            | none => none
            | some tz => some (hh, mi, 0, 0, tz)

/-- Model of `datetime.fromisoformat` on a character list. -/
def fromisoformatL (cs : List Char) : Option PyDateTime :=
  match parseDigits 4 cs with
  | none => none
  | some (y, cs) =>
    match expectChar '-' cs with
    | none => none
    | some cs =>
      match parseDigits 2 cs with
      | none => none
      | some (mo, cs) =>
        match expectChar '-' cs with
        | none => none
        | some cs =>
          match parseDigits 2 cs with
          | none => none
          | some (d, cs) =>
            if ¬ (1 ≤ y && 1 ≤ mo && mo ≤ 12 && 1 ≤ d && d ≤ daysInMonth y mo) then
              none
            else
              match cs with
              | [] => some ⟨y, mo, d, 0, 0, 0, 0, none⟩
              | sep :: rest =>
                  if sep = 'T' || sep = ' ' then
                    match parseTimeTail rest with
                    | some (hh, mi, ss, us, tz) =>
                        if hh ≤ 23 && mi ≤ 59 && ss ≤ 59 then
                          some ⟨y, mo, d, hh, mi, ss, us, tz⟩
                        else none
                    | none => none
                  else none

def fromisoformat (s : String) : Option PyDateTime := fromisoformatL s.toList

/-! ## `parse_trade_date` (fetch_data.py lines 119–133) -/

/-- Python `s.replace('Z', '+00:00')` on character lists. -/
def replaceZ (cs : List Char) : List Char :=
  cs.flatMap (fun c => if c = 'Z' then "+00:00".toList else [c])

/-- Split at the FIRST occurrence of `c`: `some (before, after)` with `c`
removed, or `none` when `c` does not occur. -/
def splitFirst (c : Char) : List Char → Option (List Char × List Char)
  | [] => none
  | a :: t =>
      if a = c then some ([], t)
      else
        match splitFirst c t with
        | some (b, r) => some (a :: b, r)
        | none => none

/-- Python `parse_trade_date`: normalize `Z` to `+00:00`; when both `.` and `+`
are present, rebuild the string as `parts[0] . micro(6 digits) +00:00`
where `micro = parts[1].split('+')[0][:6].ljust(6,'0')` and `parts` is the
split on `.`; then `datetime.fromisoformat`.  `None` and the empty string
(falsy in Python) yield `none`, as does any parse failure. -/
def parse_trade_date (created_time : Option String) : Option PyDateTime :=
  match created_time with
  | none => none
  | some s =>
    if s = "" then none
    else
      let cs := s.toList
      let cs := if cs.contains 'Z' then replaceZ cs else cs
      let cs :=
        if cs.contains '.' && cs.contains '+' then
          match splitFirst '.' cs with
          | some (p0, rest) =>
              let p1 := match splitFirst '.' rest with
                        | some (b, _) => b
                        | none => rest
              let beforePlus := match splitFirst '+' p1 with
                                | some (b, _) => b
                                | none => p1
              let micro := beforePlus.take 6
              let micro := micro ++ List.replicate (6 - micro.length) '0'
              p0 ++ ('.' :: micro) ++ "+00:00".toList
          | none => cs
        else cs
      fromisoformatL cs

/-! ## `strftime` month fields and `isoformat` (Python stdlib, modelled) -/

def digitChar (n : Nat) : Char := Char.ofNat (48 + n)

/-- Field `%Y`: zero-padded 4-digit field (years from the parser are ≤ 9999). -/
def show4 (n : Nat) : String :=
  String.mk [digitChar (n / 1000 % 10), digitChar (n / 100 % 10),
             digitChar (n / 10 % 10), digitChar (n % 10)]

/-- Fields `%m` / `%d` / `%H`: zero-padded 2-digit. -/
def show2 (n : Nat) : String :=
  String.mk [digitChar (n / 10 % 10), digitChar (n % 10)]

/-- The 6-digit microsecond field of `isoformat`. -/
def show6 (n : Nat) : String :=
  String.mk [digitChar (n / 100000 % 10), digitChar (n / 10000 % 10),
             digitChar (n / 1000 % 10), digitChar (n / 100 % 10),
             digitChar (n / 10 % 10), digitChar (n % 10)]

/-- Python `dt.strftime('%b %Y')`, e.g. "Jan 2025". -/
def strftimeMonth (dt : PyDateTime) : String :=
  (match dt.month with
   | 1 => "Jan" | 2 => "Feb" | 3 => "Mar" | 4 => "Apr" | 5 => "May"
   | 6 => "Jun" | 7 => "Jul" | 8 => "Aug" | 9 => "Sep" | 10 => "Oct"
   | 11 => "Nov" | 12 => "Dec" | _ => "") ++ " " ++ show4 dt.year

/-- Python `dt.strftime('%Y-%m')`, the sortable month key, e.g. "2025-01". -/
def strftimeSort (dt : PyDateTime) : String := show4 dt.year ++ "-" ++ show2 dt.month

/-- Python `dt.isoformat()`: `YYYY-MM-DDTHH:MM:SS[.ffffff][+HH:MM]`. -/
def isoformatStr (dt : PyDateTime) : String :=
  show4 dt.year ++ "-" ++ show2 dt.month ++ "-" ++ show2 dt.day ++ "T" ++
  show2 dt.hour ++ ":" ++ show2 dt.minute ++ ":" ++ show2 dt.second ++
  (if dt.microsecond = 0 then "" else "." ++ show6 dt.microsecond) ++
  (match dt.tzOffsetMinutes with
   | none => ""
   | some off =>
       (if off < 0 then "-" else "+") ++
       show2 (off.natAbs / 60) ++ ":" ++ show2 (off.natAbs % 60))

/-! ## Trade decoding (fetch_data.py lines 190–209) -/

/-- One raw fill record from the API: every field may be absent. -/
structure RawFill where
  ticker : Option String
  side : Option String
  count : Option Nat
  price : Option Money
  created_time : Option String
deriving DecidableEq

/-- A decoded trade (the dict built at lines 200–209). -/
structure Trade where
  ticker : String
  side : String
  count : Nat
  price_dollars : Money
  cost : Money
  created_time : Option String
  trade_date : Option PyDateTime
  sport : String
deriving DecidableEq

/-- Decode one fill with the source's `.get` defaults: `ticker` → `""`,
`side` → `"yes"`, `count` → `0`, `price` → `0`; `cost = price * count`;
`created_time` is kept as a string when truthy, else `None`. -/
def decodeFill (f : RawFill) : Trade :=
  let ticker := f.ticker.getD ""
  let side := f.side.getD "yes"
  let count := f.count.getD 0
  let price := f.price.getD 0
  { ticker := ticker
    side := side
    count := count
    price_dollars := price
    cost := price * (count : Money)
    created_time := f.created_time.bind (fun s => if s = "" then none else some s)
    trade_date := parse_trade_date f.created_time
    sport := categorize_sport ticker }

/-! ## `calculate_outcome` (fetch_data.py lines 136–160) -/

/-- The `market` object inside a market-info response. -/
structure MarketState where
  status : String
  result : Option String
deriving DecidableEq

structure Outcome where
  status : String
  payout : Money
  profit : Money
deriving DecidableEq

/-- Python `calculate_outcome`: classify one trade against its market state
(`none` models a failed/absent market lookup). -/
def calculate_outcome (trade : Trade) (market_info : Option MarketState) : Outcome :=
  match market_info with
  | none => ⟨"unknown", 0, 0⟩
  | some m =>
    let status := lowerStr m.status
    let result := lowerStr (m.result.getD "")
    if status = "open" || status = "active" then ⟨"open", 0, 0⟩
    else if status = "closed" || status = "settled" || status = "finalized" then
      let trade_side := lowerStr trade.side
      if result = trade_side then
        let payout : Money := (trade.count : Money) * 1
        ⟨"won", payout, payout - trade.cost⟩
      else ⟨"lost", 0, -trade.cost⟩
    else ⟨"unknown", 0, 0⟩

/-! ## Per-trade annotation (fetch_data.py lines 222–252) -/

/-- A trade after outcome classification and month labelling. -/
structure CTrade extends Trade where
  outcome_status : String
  payout : Money
  profit : Money
  month : String
  month_sort : String
deriving DecidableEq

/-- Annotate one trade: attach the outcome for its ticker's market state
and the month fields.  The source round-trips `trade['trade_date']`
through `isoformat`/`fromisoformat` (which always succeeds on an
`isoformat` string, so its `except` branch is dead); a trade with no
parsed date gets the `"Unknown"` sentinel for both month fields. -/
def classifyTrade (lookup : String → Option MarketState) (t : Trade) : CTrade :=
  let o := calculate_outcome t (lookup t.ticker)
  { t with
    outcome_status := o.status
    payout := o.payout
    profit := o.profit
    month := match t.trade_date with
             | some dt => strftimeMonth dt
             | none => "Unknown"
    month_sort := match t.trade_date with
                  | some dt => strftimeSort dt
                  | none => "Unknown" }

/-! ## Aggregation engine (fetch_data.py lines 254–362) -/

def sumCost (ts : List CTrade) : Money := (ts.map (fun t => t.cost)).sum

def sumPayout (ts : List CTrade) : Money := (ts.map (fun t => t.payout)).sum

def sumProfit (ts : List CTrade) : Money := (ts.map (fun t => t.profit)).sum

/-- Python `len([t for t in ts if t['outcome_status'] == s])`. -/
def countStatus (s : String) (ts : List CTrade) : Nat :=
  (ts.filter (fun t => t.outcome_status = s)).length

/-- The win-rate formula used identically for every bucket:
`round((won / (won + lost) * 100) if (won + lost) > 0 else 0, 1)`. -/
def winRate (won lost : Nat) : Money :=
  round1 (if 0 < won + lost then
            (won : Money) / ((won : Money) + (lost : Money)) * 100
          else 0)

/-- Python sort key `x.get('trade_date') or ''` (the `trade_date` field
holds the `isoformat` string). -/
def dateKey (t : CTrade) : String :=
  match t.trade_date with
  | some dt => isoformatStr dt
  | none => ""

/-- Python `sorted(ts, key=lambda x: x.get('trade_date') or '', reverse=True)`:
stable descending sort on the date key. -/
def sortByDateDesc (ts : List CTrade) : List CTrade :=
  ts.mergeSort (fun a b => strLe (dateKey b) (dateKey a))

/-- First-occurrence deduplication: the key order of a Python
`defaultdict` populated by one pass over the trades. -/
def firstDedup : List String → List String
  | [] => []
  | a :: l => a :: (firstDedup l).filter (fun x => x ≠ a)

/-- The `summary` record (lines 263–274 and 345–356). -/
structure Summary where
  total_trades : Nat
  won : Nat
  lost : Nat
  openCount : Nat  -- the source's `open` field (`open` is a Lean keyword)
  win_rate : Money
  total_invested : Money
  total_payout : Money
  total_profit : Money
  roi : Money
  avg_bet : Money
deriving DecidableEq

def computeSummary (ts : List CTrade) : Summary :=
  let total_cost := sumCost ts
  let total_payout := sumPayout ts
  let total_profit := sumProfit ts
  let won := countStatus "won" ts
  let lost := countStatus "lost" ts
  let openCount := countStatus "open" ts
  let roi : Money := if 0 < total_cost then total_profit / total_cost * 100 else 0
  let avg_bet : Money := if ts ≠ [] then total_cost / (ts.length : Money) else 0
  { total_trades := ts.length
    won := won
    lost := lost
    openCount := openCount
    win_rate := winRate won lost
    total_invested := round2 total_cost
    total_payout := round2 total_payout
    total_profit := round2 total_profit
    roi := round1 roi
    avg_bet := round2 avg_bet }

/-- The `recent_stats` record (lines 276–301). -/
structure RecentStats where
  trades : Nat
  won : Nat
  lost : Nat
  openCount : Nat
  win_rate : Money
  invested : Money
  profit : Money
  trades_list : List CTrade
deriving DecidableEq

/-- The recency filter (lines 278–288): keep trades with a parsed date
whose instant (naive treated as UTC) is `≥ now - 7 days`.  `nowUs` is
`datetime.now(timezone.utc)` in epoch microseconds. -/
def recentFilter (nowUs : Int) (ts : List CTrade) : List CTrade :=
  ts.filter (fun t =>
    match t.trade_date with
    | some dt => decide (nowUs - 7 * 86400000000 ≤ dt.instantUs)
    | none => false)

def recent_stats (nowUs : Int) (ts : List CTrade) : RecentStats :=
  let recent := recentFilter nowUs ts
  let won := countStatus "won" recent
  let lost := countStatus "lost" recent
  { trades := recent.length
    won := won
    lost := lost
    openCount := countStatus "open" recent
    win_rate := winRate won lost
    invested := round2 (sumCost recent)
    profit := round2 (sumProfit recent)
    trades_list := (sortByDateDesc recent).take 20 }

/-- One `sport_stats` entry (lines 309–319). -/
structure SportStat where
  sport : String
  trades : Nat
  won : Nat
  lost : Nat
  win_rate : Money
  invested : Money
  profit : Money
  avg_bet : Money
  trades_list : List CTrade
deriving DecidableEq

def mkSportStat (sport : String) (trades : List CTrade) : SportStat :=
  let won := countStatus "won" trades
  let lost := countStatus "lost" trades
  let s_cost := sumCost trades
  { sport := sport
    trades := trades.length
    won := won
    lost := lost
    win_rate := winRate won lost
    invested := round2 s_cost
    profit := round2 (sumProfit trades)
    avg_bet := if trades ≠ [] then round2 (s_cost / (trades.length : Money)) else 0
    trades_list := sortByDateDesc trades }

/-- The group of trades for one sport (`by_sport[sport]`, insertion order). -/
def sportGroup (ts : List CTrade) (s : String) : List CTrade :=
  ts.filter (fun t => t.sport = s)

/-- Python `sport_stats` (lines 304–319): one bucket per distinct sport, ordered
by the group's (unrounded) summed profit, descending, stable. -/
def sport_stats (ts : List CTrade) : List SportStat :=
  let keys := firstDedup (ts.map (fun t => t.sport))
  let sortedKeys :=
    keys.mergeSort (fun a b =>
      decide (sumProfit (sportGroup ts b) ≤ sumProfit (sportGroup ts a)))
  sortedKeys.map (fun s => mkSportStat s (sportGroup ts s))

/-- One `month_stats` entry (lines 328–339). -/
structure MonthStat where
  month : String
  month_sort : String
  trades : Nat
  won : Nat
  lost : Nat
  win_rate : Money
  invested : Money
  profit : Money
  avg_bet : Money
  trades_list : List CTrade
deriving DecidableEq

def mkMonthStat (key : String) (trades : List CTrade) : MonthStat :=
  let won := countStatus "won" trades
  let lost := countStatus "lost" trades
  let m_cost := sumCost trades
  { month := match trades with
             | t :: _ => t.month
             | [] => key
    month_sort := key
    trades := trades.length
    won := won
    lost := lost
    win_rate := winRate won lost
    invested := round2 m_cost
    profit := round2 (sumProfit trades)
    avg_bet := if trades ≠ [] then round2 (m_cost / (trades.length : Money)) else 0
    trades_list := sortByDateDesc trades }

/-- The group of trades for one month key (`by_month[key]`; membership
in `by_month` already requires `month_sort != 'Unknown'`, which holds
automatically for any trade whose `month_sort` equals a key drawn from
that dict). -/
def monthGroup (ts : List CTrade) (k : String) : List CTrade :=
  ts.filter (fun t => t.month_sort = k)

/-- The month keys present (lines 255–261): `month_sort` of trades with
`month_sort != 'Unknown'`, first occurrence order. -/
def monthKeys (ts : List CTrade) : List String :=
  firstDedup ((ts.filter (fun t => t.month_sort ≠ "Unknown")).map (fun t => t.month_sort))

/-- Python `month_stats` (lines 321–339): `for month_sort in sorted(by_month.keys())`. -/
def month_stats (ts : List CTrade) : List MonthStat :=
  let sortedKeys := (monthKeys ts).mergeSort (fun a b => strLe a b)
  sortedKeys.map (fun k => mkMonthStat k (monthGroup ts k))

/-! ## Lemmas about rounding -/

theorem rhe_eq_floor_or (q : ℚ) : rhe q = ⌊q⌋ ∨ rhe q = ⌊q⌋ + 1 := by
  simp only [rhe]
  split_ifs <;> simp

theorem floor_le_rhe (q : ℚ) : ⌊q⌋ ≤ rhe q := by
  rcases rhe_eq_floor_or q with h | h <;> omega

theorem rhe_intCast (n : ℤ) : rhe (n : ℚ) = n := by
  simp only [rhe, Int.floor_intCast]
  norm_num

theorem rhe_nonneg {q : ℚ} (h : 0 ≤ q) : 0 ≤ rhe q := by
  have := floor_le_rhe q
  have h0 : (0 : ℤ) ≤ ⌊q⌋ := by positivity
  omega

theorem rhe_le_of_le {q : ℚ} {n : ℤ} (h : q ≤ n) : rhe q ≤ n := by
  have hf : ⌊q⌋ ≤ n := by
    have := Int.floor_le_floor h
    simpa using this
  rcases lt_or_eq_of_le hf with hlt | heq
  · rcases rhe_eq_floor_or q with h1 | h1 <;> omega
  · have hq : q = (n : ℚ) := by
      have h1 : (n : ℚ) ≤ q := by
        rw [← heq]; exact Int.floor_le q
      exact le_antisymm h h1
    rw [hq, rhe_intCast]

theorem rhe_mono {x y : ℚ} (h : x ≤ y) : rhe x ≤ rhe y := by
  have hf : ⌊x⌋ ≤ ⌊y⌋ := Int.floor_le_floor h
  rcases lt_or_eq_of_le hf with hlt | heq
  · have h1 : rhe x ≤ ⌊x⌋ + 1 := by
      rcases rhe_eq_floor_or x with h1 | h1 <;> omega
    have h2 := floor_le_rhe y
    omega
  · -- same integer part: compare fractional parts
    have hry : x - ⌊x⌋ ≤ y - ⌊y⌋ := by
      rw [← heq]
      have : (⌊x⌋ : ℚ) ≤ ⌊x⌋ := le_refl _
      linarith
    simp only [rhe]
    rw [← heq]
    split_ifs <;> first
      | omega
      | (exfalso; linarith)

theorem round1_zero : round1 0 = 0 := by
  have h : rhe (0 : ℚ) = 0 := by
    have h0 := rhe_intCast 0
    rw [Int.cast_zero] at h0
    exact h0
  simp [round1, h]

theorem round1_nonneg {q : ℚ} (h : 0 ≤ q) : 0 ≤ round1 q := by
  have : (0 : ℤ) ≤ rhe (q * 10) := rhe_nonneg (by linarith)
  simp only [round1]
  positivity

theorem round1_le_100 {q : ℚ} (h : q ≤ 100) : round1 q ≤ 100 := by
  have h1 : q * 10 ≤ ((1000 : ℤ) : ℚ) := by push_cast; linarith
  have h2 : rhe (q * 10) ≤ 1000 := rhe_le_of_le h1
  simp only [round1]
  rw [div_le_iff₀ (by norm_num : (0:ℚ) < 10)]
  calc ((rhe (q * 10) : ℚ)) ≤ ((1000 : ℤ) : ℚ) := by exact_mod_cast h2
    _ = 100 * 10 := by norm_num

theorem round2_mono {x y : ℚ} (h : x ≤ y) : round2 x ≤ round2 y := by
  simp only [round2]
  have h1 : rhe (x * 100) ≤ rhe (y * 100) := rhe_mono (by linarith)
  have h2 : ((rhe (x * 100) : ℚ)) ≤ (rhe (y * 100) : ℚ) := by exact_mod_cast h1
  linarith

/-- The shared win-rate formula is in `[0, 100]` and is `0` on an empty
won/lost record. -/
theorem winRate_mem (won lost : Nat) :
    0 ≤ winRate won lost ∧ winRate won lost ≤ 100 ∧
      (won + lost = 0 → winRate won lost = 0) := by
  unfold winRate
  by_cases hc : 0 < won + lost
  · rw [if_pos hc]
    have hd : (0 : Money) < (won : Money) + (lost : Money) := by
      have : (0 : Money) < ((won + lost : Nat) : Money) := by exact_mod_cast hc
      push_cast at this ⊢
      linarith
    have h0 : 0 ≤ (won : Money) / ((won : Money) + (lost : Money)) * 100 := by
      positivity
    have h1 : (won : Money) / ((won : Money) + (lost : Money)) * 100 ≤ 100 := by
      have hle : (won : Money) ≤ (won : Money) + (lost : Money) := by
        have : (0 : Money) ≤ (lost : Money) := by positivity
        linarith
      have : (won : Money) / ((won : Money) + (lost : Money)) ≤ 1 :=
        (div_le_one hd).mpr hle
      linarith
    exact ⟨round1_nonneg h0, round1_le_100 h1, fun h => by omega⟩
  · rw [if_neg hc]
    exact ⟨by rw [round1_zero], by rw [round1_zero]; norm_num, fun _ => round1_zero⟩

/-! ## Lemmas about string comparison and deduplication -/

theorem charListLe_trans : ∀ (a b c : List Char),
    charListLe a b = true → charListLe b c = true → charListLe a c = true
  | [], _, _, _, _ => rfl
  | _ :: _, [], _, h1, _ => by simp [charListLe] at h1
  | _ :: _, _ :: _, [], _, h2 => by simp [charListLe] at h2
  | x :: xs, y :: ys, z :: zs, h1, h2 => by
    simp only [charListLe] at h1 h2 ⊢
    by_cases hxy : x = y <;> by_cases hyz : y = z
    · subst hxy; subst hyz
      simp only [if_pos rfl] at h1 h2 ⊢
      exact charListLe_trans xs ys zs h1 h2
    · subst hxy
      rw [if_neg hyz] at h2 ⊢
      exact h2
    · subst hyz
      rw [if_neg hxy] at h1 ⊢
      exact h1
    · rw [if_neg hxy] at h1
      rw [if_neg hyz] at h2
      have hxy' : x < y := by simpa using h1
      have hyz' : y < z := by simpa using h2
      have hxz : x < z := lt_trans hxy' hyz'
      rw [if_neg (ne_of_lt hxz)]
      simpa using hxz

theorem charListLe_total : ∀ (a b : List Char),
    (charListLe a b || charListLe b a) = true
  | [], _ => by simp [charListLe]
  | _ :: _, [] => by simp [charListLe]
  | x :: xs, y :: ys => by
    simp only [charListLe]
    by_cases hxy : x = y
    · subst hxy
      simp only [if_pos rfl]
      exact charListLe_total xs ys
    · rw [if_neg hxy, if_neg (Ne.symm hxy)]
      rcases lt_or_gt_of_ne hxy with h | h
      · simp [h]
      · simp [h]

theorem mem_firstDedup (x : String) :
    ∀ (l : List String), x ∈ firstDedup l ↔ x ∈ l := by
  intro l
  induction l with
  | nil => simp [firstDedup]
  | cons a l ih =>
      simp only [firstDedup, List.mem_cons, List.mem_filter, ih]
      constructor
      · rintro (rfl | ⟨h, _⟩)
        · exact Or.inl rfl
        · exact Or.inr h
      · rintro (rfl | h)
        · exact Or.inl rfl
        · by_cases hxa : x = a
          · exact Or.inl hxa
          · exact Or.inr ⟨h, by simp [hxa]⟩

theorem nodup_firstDedup : ∀ (l : List String), (firstDedup l).Nodup := by
  intro l
  induction l with
  | nil => simp [firstDedup]
  | cons a l ih =>
      simp only [firstDedup]
      refine List.nodup_cons.mpr ⟨?_, ih.filter _⟩
      intro hmem
      have h2 := List.mem_filter.mp hmem
      simp at h2

/-! ## Sum-over-groups conservation lemmas -/

theorem sum_filter_split {α : Type} (p : α → Bool) (f : α → ℚ) :
    ∀ ts : List α,
      ((ts.filter p).map f).sum + ((ts.filter (fun t => !(p t))).map f).sum
        = (ts.map f).sum
  | [] => by simp
  | t :: ts => by
    have ih := sum_filter_split p f ts
    by_cases h : p t = true
    · simp only [List.filter_cons, h, Bool.not_true, if_true]
      simp only [List.map_cons, List.sum_cons, if_false]
      push_cast
      linarith
    · have h' : p t = false := by simpa using h
      simp only [List.filter_cons, h', Bool.not_false, if_true]
      simp only [List.map_cons, List.sum_cons, if_false]
      push_cast
      linarith

theorem sum_groups {α : Type} (k : α → String) (f : α → ℚ) (keys : List String) :
    ∀ ts : List α, keys.Nodup → (∀ t ∈ ts, k t ∈ keys) →
      (keys.map (fun s => ((ts.filter (fun t => k t = s)).map f).sum)).sum
        = (ts.map f).sum := by
  induction keys with
  | nil =>
      intro ts _ hcov
      have hnil : ts = [] := by
        cases ts with
        | nil => rfl
        | cons t ts => exact absurd (hcov t (by simp)) (by simp)
      subst hnil
      simp
  | cons a keys ih =>
      intro ts hnd hcov
      have hnd' := List.nodup_cons.mp hnd
      have hsplit := sum_filter_split (fun t => decide (k t = a)) f ts
      simp only [List.map_cons, List.sum_cons]
      have hrest :
          keys.map (fun s => ((ts.filter (fun t => k t = s)).map f).sum)
            = keys.map (fun s =>
                (((ts.filter (fun t => !(decide (k t = a)))).filter
                    (fun t => k t = s)).map f).sum) := by
        apply List.map_congr_left
        intro s hs
        have hsa : s ≠ a := fun h => hnd'.1 (h ▸ hs)
        have hfe : ts.filter (fun t => decide (k t = s))
            = (ts.filter (fun t => !(decide (k t = a)))).filter
                (fun t => decide (k t = s)) := by
          rw [List.filter_filter]
          apply List.filter_congr
          intro t _
          by_cases h : k t = s
          · have : k t ≠ a := fun hh => hsa (h ▸ hh ▸ rfl)
            simp [h, this, hsa]
          · simp [h]
        rw [← hfe]
      rw [hrest, ih (ts.filter (fun t => !(decide (k t = a)))) hnd'.2 ?_]
      · linarith
      · intro t ht
        have h1 := List.mem_filter.mp ht
        have h2 := hcov t h1.1
        have h3 : ¬ (k t = a) := by simpa using h1.2
        rcases List.mem_cons.mp h2 with h4 | h4
        · exact absurd h4 h3
        · exact h4

/-! ## Concrete example data (the spec's worked example and small inputs) -/

/-- The spec's three-trade example: (yes, 10, $0.60), (no, 5, $0.30),
(yes, 8, $0.50). -/
def exFills : List RawFill :=
  [⟨some "T1", some "yes", some 10, some (6/10), none⟩,
   ⟨some "T2", some "no", some 5, some (3/10), none⟩,
   ⟨some "T3", some "yes", some 8, some (1/2), none⟩]

/-- Market states for the example: T1 and T2 settled with result `yes`,
T3 still open. -/
def exLookup : String → Option MarketState := fun t =>
  if t = "T1" then some ⟨"settled", some "yes"⟩
  else if t = "T2" then some ⟨"settled", some "yes"⟩
  else if t = "T3" then some ⟨"open", none⟩
  else none

def exTrades : List CTrade :=
  exFills.map (fun f => classifyTrade exLookup (decodeFill f))

/-- A single dateless losing trade: side `no` against result `yes`,
1 contract at $1. -/
def lostFill : RawFill := ⟨some "T2", some "no", some 1, some 1, none⟩

def lostOnly : List CTrade := [classifyTrade exLookup (decodeFill lostFill)]

/-- A fill with every field absent. -/
def fillNoDate : RawFill := ⟨none, none, none, none, none⟩

/-! ## C1: outcome calculator classification -/

/-- C1. `calculate_outcome` is an exhaustive four-way classifier:
a null market state yields `unknown` with zero payout and profit; market
status (lowercased) in {open, active} yields `open` zeroed; status in
{closed, settled, finalized} yields `won` with `payout = count` and
`profit = payout - cost` exactly when the lowercased result equals the
lowercased side, else `lost` with `payout = 0`, `profit = -cost`; any
other status yields `unknown` zeroed.  Consequently `payout = count`
when won and `payout = 0` otherwise (the two coincide when `count = 0`,
so the "iff" form is stated for `count ≠ 0`). -/
theorem calculate_outcome_cases (t : Trade) (m : Option MarketState) :
    (m = none → calculate_outcome t m = ⟨"unknown", 0, 0⟩) ∧
    (∀ ms : MarketState, m = some ms →
      ((lowerStr ms.status = "open" ∨ lowerStr ms.status = "active") →
          calculate_outcome t m = ⟨"open", 0, 0⟩) ∧
      ((lowerStr ms.status = "closed" ∨ lowerStr ms.status = "settled" ∨
          lowerStr ms.status = "finalized") →
        (lowerStr (ms.result.getD "") = lowerStr t.side →
            calculate_outcome t m =
              ⟨"won", (t.count : Money), (t.count : Money) - t.cost⟩) ∧
        (lowerStr (ms.result.getD "") ≠ lowerStr t.side →
            calculate_outcome t m = ⟨"lost", 0, -t.cost⟩)) ∧
      (lowerStr ms.status ∉
          ["open", "active", "closed", "settled", "finalized"] →
          calculate_outcome t m = ⟨"unknown", 0, 0⟩)) ∧
    ((calculate_outcome t m).status = "won" →
        (calculate_outcome t m).payout = (t.count : Money) ∧
        (calculate_outcome t m).profit =
          (calculate_outcome t m).payout - t.cost) ∧
    ((calculate_outcome t m).status = "lost" →
        (calculate_outcome t m).payout = 0 ∧
        (calculate_outcome t m).profit = -t.cost) ∧
    (((calculate_outcome t m).status = "open" ∨
        (calculate_outcome t m).status = "unknown") →
        (calculate_outcome t m).payout = 0 ∧
        (calculate_outcome t m).profit = 0) ∧
    ((calculate_outcome t m).status ≠ "won" →
        (calculate_outcome t m).payout = 0) ∧
    ((t.count : Money) ≠ 0 →
        ((calculate_outcome t m).payout = (t.count : Money) ↔
          (calculate_outcome t m).status = "won")) ∧
    (calculate_outcome t m).status ∈ ["unknown", "open", "won", "lost"] := by
  refine ⟨?_, ?_, ?_⟩
  · intro h
    subst h
    rfl
  · intro ms hm
    subst hm
    refine ⟨?_, ?_, ?_⟩
    · intro h
      rcases h with h | h <;> simp [calculate_outcome, h]
    · intro h
      constructor <;> intro hr <;>
        rcases h with h | h | h <;>
          simp [calculate_outcome, h, hr]
    · intro h
      simp only [List.mem_cons, List.not_mem_nil, or_false] at h
      push_neg at h
      obtain ⟨h1, h2, h3, h4, h5⟩ := h
      simp [calculate_outcome, h1, h2, h3, h4, h5]
  · cases m with
    | none =>
        simp [calculate_outcome, eq_comm]
    | some ms =>
        simp only [calculate_outcome]
        split_ifs with h1 h2 h3 <;>
          refine ⟨?_, ?_, ?_, ?_, ?_, ?_⟩ <;>
            simp [eq_comm, Nat.cast_eq_zero]

/-- Witness for C1 at a concrete input: a null market state on the
example's first decoded trade classifies as `unknown`. -/
theorem calculate_outcome_cases_witness :
    calculate_outcome (decodeFill lostFill) none = ⟨"unknown", 0, 0⟩ :=
  (calculate_outcome_cases (decodeFill lostFill) none).1 rfl

/-! ## C5: ticker classifier totality and precedence -/

set_option maxHeartbeats 4000000 in
/-- C5. For every ticker string (including `""`), `categorize_sport`
returns exactly one label from the fixed twelve-label list; any ticker
containing a parlay keyword classifies as `Parlays` (in particular one
containing both a parlay keyword and `"NFL"`), and a ticker matching no
keyword at all classifies as `Other`.  Matching is case-insensitive
(substring search on the uppercased ticker) in precedence order with the
first match winning, which is the shape of the definition itself. -/
theorem categorize_sport_total (t : String) :
    categorize_sport t ∈ categoryLabels ∧
    (anyKw (upStr t) parlayKeywords = true → categorize_sport t = "Parlays") ∧
    (anyKw (upStr t) parlayKeywords = true ∧ strContains (upStr t) "NFL" = true →
        categorize_sport t = "Parlays") ∧
    ((∀ kw ∈ allKeywords, strContains (upStr t) kw = false) →
        categorize_sport t = "Other") := by
  refine ⟨?_, ?_, ?_, ?_⟩
  · unfold categorize_sport
    dsimp only
    split_ifs <;> simp [categoryLabels]
  · intro h
    unfold categorize_sport
    dsimp only
    simp [h]
  · intro h
    unfold categorize_sport
    dsimp only
    simp [h.1]
  · intro h
    have hPARLAY := h "PARLAY" (by decide)
    have hBUNDLE := h "BUNDLE" (by decide)
    have hMULTIGAME := h "MULTIGAME" (by decide)
    have hMULTI := h "MULTI" (by decide)
    have hCOMBO := h "COMBO" (by decide)
    have hGOAL := h "GOAL" (by decide)
    have hPOINT := h "POINT" (by decide)
    have hASSIST := h "ASSIST" (by decide)
    have hREBOUND := h "REBOUND" (by decide)
    have hTOUCHDOWN := h "TOUCHDOWN" (by decide)
    have hYARD := h "YARD" (by decide)
    have hRECEPTION := h "RECEPTION" (by decide)
    have hRUSH := h "RUSH" (by decide)
    have hPASS := h "PASS" (by decide)
    have hHIT := h "HIT" (by decide)
    have hRBI := h "RBI" (by decide)
    have hSTRIKEOUT := h "STRIKEOUT" (by decide)
    have hSAVE := h "SAVE" (by decide)
    have hSHOT := h "SHOT" (by decide)
    have hESPORTS := h "ESPORTS" (by decide)
    have hGAMING := h "GAMING" (by decide)
    have hPLAYER := h "PLAYER" (by decide)
    have hNHL := h "NHL" (by decide)
    have hNFL := h "NFL" (by decide)
    have hNBA := h "NBA" (by decide)
    have hMLB := h "MLB" (by decide)
    have hNCAAF := h "NCAAF" (by decide)
    have hCFB := h "CFB" (by decide)
    have hNCAAB := h "NCAAB" (by decide)
    have hCBB := h "CBB" (by decide)
    have hSOCCER := h "SOCCER" (by decide)
    have hEPL := h "EPL" (by decide)
    have hPREMIER := h "PREMIER" (by decide)
    have hUFC := h "UFC" (by decide)
    have hMMA := h "MMA" (by decide)
    have hFIGHT := h "FIGHT" (by decide)
    have hPGA := h "PGA" (by decide)
    have hGOLF := h "GOLF" (by decide)
    unfold categorize_sport
    dsimp only
    simp [anyKw, parlayKeywords, propKeywords,
      List.any_cons, List.any_nil,
      hPARLAY, hBUNDLE, hMULTIGAME, hMULTI, hCOMBO, hGOAL, hPOINT, hASSIST, hREBOUND, hTOUCHDOWN, hYARD, hRECEPTION, hRUSH, hPASS, hHIT, hRBI, hSTRIKEOUT, hSAVE, hSHOT, hESPORTS, hGAMING, hPLAYER, hNHL, hNFL, hNBA, hMLB, hNCAAF, hCFB, hNCAAB, hCBB, hSOCCER, hEPL, hPREMIER, hUFC, hMMA, hFIGHT, hPGA, hGOLF]

/-- Witness for C5: a ticker containing both `PARLAY` and `NFL` is
`Parlays`, and the empty ticker is `Other`. -/
theorem categorize_sport_total_witness :
    categorize_sport "KXNFLPARLAY-24" = "Parlays" ∧ categorize_sport "" = "Other" :=
  ⟨(categorize_sport_total "KXNFLPARLAY-24").2.2.1 (by decide),
   (categorize_sport_total "").2.2.2 (by decide)⟩

/-! ## C6: timestamp parser absorbs failures -/

/-- C6. `parse_trade_date` is total (modelled as a total function
into `Option`, mirroring that the Python wraps everything in
`try/except`): a missing timestamp and the falsy empty string yield
`none`, an unparseable string yields `none`, and every trade whose
`trade_date` is `none` gets the `"Unknown"` sentinel for both its month
label and its month key. -/
theorem parse_trade_date_never_raises :
    parse_trade_date none = none ∧
    parse_trade_date (some "") = none ∧
    parse_trade_date (some "not a timestamp") = none ∧
    parse_trade_date (some "2025-13-40T99:99:99Z") = none ∧
    (∀ (lookup : String → Option MarketState) (t : Trade),
      t.trade_date = none →
        (classifyTrade lookup t).month = "Unknown" ∧
        (classifyTrade lookup t).month_sort = "Unknown") := by
  refine ⟨rfl, by decide, by decide, by decide, ?_⟩
  intro lookup t h
  simp [classifyTrade, h]

/-- Witness for C6: the all-defaults fill has no parsed date and lands in
the `"Unknown"` month. -/
theorem parse_trade_date_never_raises_witness :
    (classifyTrade exLookup (decodeFill fillNoDate)).month = "Unknown" ∧
    (classifyTrade exLookup (decodeFill fillNoDate)).month_sort = "Unknown" :=
  parse_trade_date_never_raises.2.2.2.2 exLookup (decodeFill fillNoDate) rfl

/-! ## C10: fill decoding is total with defaults -/

/-- The empty ticker matches no keyword and falls through to `Other`. -/
theorem categorize_sport_empty : categorize_sport "" = "Other" := by decide

/-- C10. Decoding a raw fill is total over missing fields: a missing
`side` becomes `"yes"`, missing `count` becomes `0`, missing `price`
becomes `0` (hence `cost = 0`), and a missing `ticker` becomes `""`
(which classifies as `Other`); every decoded trade has `side`, `count`
and `cost` populated with `cost = price * count`, the outcome
calculator's precondition. -/
theorem decode_fill_defaults (f : RawFill) :
    (f.side = none → (decodeFill f).side = "yes") ∧
    (f.count = none → (decodeFill f).count = 0) ∧
    (f.price = none → (decodeFill f).price_dollars = 0 ∧ (decodeFill f).cost = 0) ∧
    (f.ticker = none → (decodeFill f).ticker = "" ∧ (decodeFill f).sport = "Other") ∧
    (decodeFill f).cost =
      (decodeFill f).price_dollars * ((decodeFill f).count : Money) := by
  refine ⟨?_, ?_, ?_, ?_, rfl⟩
  · intro h; simp [decodeFill, h]
  · intro h; simp [decodeFill, h]
  · intro h; simp [decodeFill, h]
  · intro h
    refine ⟨by simp [decodeFill, h], ?_⟩
    have hs : (decodeFill f).sport = categorize_sport "" := by simp [decodeFill, h]
    rw [hs]
    exact categorize_sport_empty

/-- Witness for C10: decoding the all-missing fill. -/
theorem decode_fill_defaults_witness :
    (decodeFill fillNoDate).side = "yes" ∧ (decodeFill fillNoDate).count = 0 ∧
    (decodeFill fillNoDate).cost = 0 ∧ (decodeFill fillNoDate).sport = "Other" :=
  ⟨(decode_fill_defaults fillNoDate).1 rfl,
   (decode_fill_defaults fillNoDate).2.1 rfl,
   ((decode_fill_defaults fillNoDate).2.2.1 rfl).2,
   ((decode_fill_defaults fillNoDate).2.2.2.1 rfl).2⟩

/-! ## C4: the spec's worked three-trade example -/

/-- C4 counterexample. On exactly the claim's three-trade input the
pipeline's summary has `total_invested = 11.5` (6.00 + 1.50 + 4.00), not
the claimed `8.5` (= 17/2). -/
theorem example_total_invested_counterexample :
    (computeSummary exTrades).total_invested ≠ (17/2 : Money) := by
  with_unfolding_all decide

/-- C4 (amended). The three trades classify won / lost / open with
profits 4.0 / −1.5 / 0, and the summary is `total_trades = 3`, `won = 1`,
`lost = 1`, `open = 1`, `win_rate = 50.0`, `total_profit = 2.5` — but
`total_invested = 11.5`, not 8.5. -/
theorem example_pipeline_summary :
    exTrades.map (fun t => t.outcome_status) = ["won", "lost", "open"] ∧
    exTrades.map (fun t => t.profit) = [4, -3/2, 0] ∧
    (computeSummary exTrades).total_trades = 3 ∧
    (computeSummary exTrades).won = 1 ∧
    (computeSummary exTrades).lost = 1 ∧
    (computeSummary exTrades).openCount = 1 ∧
    (computeSummary exTrades).win_rate = 50 ∧
    (computeSummary exTrades).total_invested = 23/2 ∧
    (computeSummary exTrades).total_profit = 5/2 := by
  with_unfolding_all decide

/-! ## C3: win-rate range -/

/-- C3 counterexample. `win_rate = 0` does not imply `won + lost = 0`:
a single lost trade gives `win_rate = 0` with `won + lost = 1`. -/
theorem win_rate_zero_counterexample :
    (computeSummary lostOnly).win_rate = 0 ∧
    (computeSummary lostOnly).won + (computeSummary lostOnly).lost ≠ 0 := by
  with_unfolding_all decide

/-- C3 (amended). For every bucket (overall summary, recency window,
category, month), `win_rate ∈ [0, 100]`, and `won + lost = 0` implies
`win_rate = 0` (the converse direction of the claim fails: a bucket with
`won = 0 < lost` also has `win_rate = 0`). -/
theorem win_rate_in_range (ts : List CTrade) (nowUs : Int) :
    (0 ≤ (computeSummary ts).win_rate ∧ (computeSummary ts).win_rate ≤ 100 ∧
      ((computeSummary ts).won + (computeSummary ts).lost = 0 →
        (computeSummary ts).win_rate = 0)) ∧
    (0 ≤ (recent_stats nowUs ts).win_rate ∧
      (recent_stats nowUs ts).win_rate ≤ 100 ∧
      ((recent_stats nowUs ts).won + (recent_stats nowUs ts).lost = 0 →
        (recent_stats nowUs ts).win_rate = 0)) ∧
    (∀ b ∈ sport_stats ts, 0 ≤ b.win_rate ∧ b.win_rate ≤ 100 ∧
      (b.won + b.lost = 0 → b.win_rate = 0)) ∧
    (∀ b ∈ month_stats ts, 0 ≤ b.win_rate ∧ b.win_rate ≤ 100 ∧
      (b.won + b.lost = 0 → b.win_rate = 0)) := by
  refine ⟨winRate_mem _ _, winRate_mem _ _, ?_, ?_⟩
  · intro b hb
    simp only [sport_stats, List.mem_map] at hb
    obtain ⟨s, _, rfl⟩ := hb
    exact winRate_mem _ _
  · intro b hb
    simp only [month_stats, List.mem_map] at hb
    obtain ⟨k, _, rfl⟩ := hb
    exact winRate_mem _ _

/-- Witness for C3 (amended): the empty trade list has `win_rate = 0`. -/
theorem win_rate_in_range_witness :
    (computeSummary []).win_rate = 0 :=
  (win_rate_in_range [] 0).1.2.2 (by with_unfolding_all decide)

/-! ## C9: category buckets ordered by profit descending -/

/-- C9. For every input trade list, the category buckets appear in
non-increasing order of their `profit` field: the sort key is the
group's exact summed profit, and rounding to 2 decimals is monotone, so
the stored fields inherit the order. -/
theorem sport_buckets_profit_desc (ts : List CTrade) :
    (sport_stats ts).Pairwise (fun a b => b.profit ≤ a.profit) := by
  unfold sport_stats
  dsimp only
  have hsorted :
      ((firstDedup (ts.map (fun t => t.sport))).mergeSort
          (fun a b =>
            decide (sumProfit (sportGroup ts b) ≤ sumProfit (sportGroup ts a)))).Pairwise
        (fun a b =>
          decide (sumProfit (sportGroup ts b) ≤ sumProfit (sportGroup ts a)) = true) := by
    apply List.sorted_mergeSort
    · intro a b c h1 h2
      have h1' : sumProfit (sportGroup ts b) ≤ sumProfit (sportGroup ts a) := by
        simpa using h1
      have h2' : sumProfit (sportGroup ts c) ≤ sumProfit (sportGroup ts b) := by
        simpa using h2
      simpa using le_trans h2' h1'
    · intro a b
      rcases le_total (sumProfit (sportGroup ts b)) (sumProfit (sportGroup ts a)) with h | h <;>
        simp [h]
  have hH : ∀ a b : String,
      decide (sumProfit (sportGroup ts b) ≤ sumProfit (sportGroup ts a)) = true →
      (mkSportStat b (sportGroup ts b)).profit ≤ (mkSportStat a (sportGroup ts a)).profit := by
    intro a b hab
    have h : sumProfit (sportGroup ts b) ≤ sumProfit (sportGroup ts a) := by
      simpa using hab
    simpa [mkSportStat] using round2_mono h
  exact List.Pairwise.map _ hH hsorted

/-! ## C2: profit conservation -/

/-- C2 counterexample. Month buckets drop trades with no parsed date:
with a single dateless lost trade (profit −1) there are no month buckets
at all, so the sum of month-bucket `profit` fields (0) differs from the
overall `total_profit` (−1). -/
theorem month_profit_sum_counterexample :
    ((month_stats lostOnly).map (fun b => b.profit)).sum ≠
      (computeSummary lostOnly).total_profit := by
  have hkeys : monthKeys lostOnly = [] := by with_unfolding_all decide
  have hms : month_stats lostOnly = [] := by
    unfold month_stats
    rw [hkeys, List.mergeSort_nil]
    simp
  rw [hms]
  simp only [List.map_nil, List.sum_nil]
  with_unfolding_all decide

/-- C2 (amended). The conservation law holds for the exact
(pre-rounding) sums: the summary's `total_profit` field is the rounded
per-trade profit sum; the exact profit sums of the category buckets add
up to the exact overall sum; and the exact profit sums of the month
buckets add up to the exact sum over the trades with a parsed month key
only (trades with `month_sort = "Unknown"` are excluded from the month
view).  Each bucket's `trades_list` is a permutation of its group, so the
bucket group sums are taken over `trades_list`. -/
theorem profit_conservation (ts : List CTrade) :
    (computeSummary ts).total_profit = round2 (sumProfit ts) ∧
    ((sport_stats ts).map (fun b => sumProfit b.trades_list)).sum = sumProfit ts ∧
    ((month_stats ts).map (fun b => sumProfit b.trades_list)).sum
      = sumProfit (ts.filter (fun t => t.month_sort ≠ "Unknown")) := by
  refine ⟨rfl, ?_, ?_⟩
  · unfold sport_stats
    dsimp only
    rw [List.map_map]
    have hpt : ∀ s ∈ (firstDedup (ts.map (fun t => t.sport))).mergeSort
        (fun a b => decide (sumProfit (sportGroup ts b) ≤ sumProfit (sportGroup ts a))),
        ((fun b => sumProfit b.trades_list) ∘
            (fun s => mkSportStat s (sportGroup ts s))) s
          = sumProfit (sportGroup ts s) := by
      intro s _
      simp only [Function.comp_apply, mkSportStat]
      unfold sumProfit sortByDateDesc
      exact ((List.mergeSort_perm _ _).map _).sum_eq
    rw [List.map_congr_left hpt]
    have hperm := (List.mergeSort_perm (firstDedup (ts.map (fun t => t.sport)))
        (fun a b =>
          decide (sumProfit (sportGroup ts b) ≤ sumProfit (sportGroup ts a)))).map
        (fun s => sumProfit (sportGroup ts s))
    rw [hperm.sum_eq]
    have hcov : ∀ t ∈ ts, (fun t : CTrade => t.sport) t ∈
        firstDedup (ts.map (fun t => t.sport)) := by
      intro t ht
      exact (mem_firstDedup _ _).mpr (List.mem_map_of_mem _ ht)
    have hsg := sum_groups (fun t : CTrade => t.sport) (fun t => t.profit)
        (firstDedup (ts.map (fun t => t.sport))) ts (nodup_firstDedup _) hcov
    simpa [sumProfit, sportGroup] using hsg
  · unfold month_stats
    dsimp only
    rw [List.map_map]
    have hpt : ∀ k ∈ (monthKeys ts).mergeSort (fun a b => strLe a b),
        ((fun b => sumProfit b.trades_list) ∘
            (fun k => mkMonthStat k (monthGroup ts k))) k
          = sumProfit ((ts.filter (fun t => t.month_sort ≠ "Unknown")).filter
              (fun t => t.month_sort = k)) := by
      intro k hk
      have hk' : k ∈ monthKeys ts := (List.mergeSort_perm _ _).mem_iff.mp hk
      have hkU : k ≠ "Unknown" := by
        have h1 := (mem_firstDedup k _).mp hk'
        obtain ⟨t, htmem, rfl⟩ := List.mem_map.mp h1
        have h2 := List.mem_filter.mp htmem
        simpa using h2.2
      have hge : monthGroup ts k
          = (ts.filter (fun t => t.month_sort ≠ "Unknown")).filter
              (fun t => t.month_sort = k) := by
        unfold monthGroup
        rw [List.filter_filter]
        apply List.filter_congr
        intro t _
        by_cases h : t.month_sort = k
        · simp [h, hkU]
        · simp [h]
      have h1 : sumProfit (sortByDateDesc (monthGroup ts k))
          = sumProfit (monthGroup ts k) := by
        unfold sumProfit sortByDateDesc
        exact ((List.mergeSort_perm _ _).map _).sum_eq
      simp only [Function.comp_apply, mkMonthStat]
      rw [← hge]
      exact h1
    rw [List.map_congr_left hpt]
    have hperm := (List.mergeSort_perm (monthKeys ts) (fun a b => strLe a b)).map
        (fun k => sumProfit ((ts.filter (fun t => t.month_sort ≠ "Unknown")).filter
          (fun t => t.month_sort = k)))
    rw [hperm.sum_eq]
    have hcov : ∀ t ∈ ts.filter (fun t => t.month_sort ≠ "Unknown"),
        (fun t : CTrade => t.month_sort) t ∈ monthKeys ts := by
      intro t ht
      exact (mem_firstDedup _ _).mpr (List.mem_map_of_mem _ ht)
    have hsg := sum_groups (fun t : CTrade => t.month_sort) (fun t => t.profit)
        (monthKeys ts) (ts.filter (fun t => t.month_sort ≠ "Unknown"))
        (nodup_firstDedup _) hcov
    simpa [sumProfit] using hsg

/-! ## C8: month buckets -/

/-- A formatted `%Y-%m` key is a seven-character digit string with a dash
at index 4, so it can never equal the sentinel `"Unknown"`. -/
theorem strftimeSort_ne_unknown (dt : PyDateTime) : strftimeSort dt ≠ "Unknown" := by
  intro h
  have h2 : (strftimeSort dt).data = "Unknown".data := congrArg String.data h
  have h3 : (strftimeSort dt).data =
      [digitChar (dt.year / 1000 % 10), digitChar (dt.year / 100 % 10),
       digitChar (dt.year / 10 % 10), digitChar (dt.year % 10), '-',
       digitChar (dt.month / 10 % 10), digitChar (dt.month % 10)] := rfl
  have h4 : "Unknown".data = ['U', 'n', 'k', 'n', 'o', 'w', 'n'] := rfl
  rw [h3, h4] at h2
  simp at h2

/-- A key drawn from `monthKeys` comes from a trade that passed the
`month_sort != 'Unknown'` filter. -/
theorem monthKeys_ne_unknown {ts : List CTrade} {k : String}
    (hk : k ∈ monthKeys ts) : k ≠ "Unknown" := by
  have h1 := (mem_firstDedup k _).mp hk
  obtain ⟨t, htmem, rfl⟩ := List.mem_map.mp h1
  have h2 := List.mem_filter.mp htmem
  simpa using h2.2

/-- C8. The month-bucket keys are strictly increasing (sorted
lexicographically, no duplicates), `"Unknown"` never appears as a bucket
key, the buckets are exactly the distinct non-`"Unknown"` month keys
present among the trades, and for every pipeline-decoded trade the month
key is `"Unknown"` exactly when its date failed to parse. -/
theorem month_buckets_ordered (ts : List CTrade) :
    ((month_stats ts).map (fun b => b.month_sort)).Pairwise
        (fun a b => strLe a b = true ∧ a ≠ b) ∧
    (∀ b ∈ month_stats ts, b.month_sort ≠ "Unknown") ∧
    (∀ k : String, (∃ b ∈ month_stats ts, b.month_sort = k) ↔
        (∃ t ∈ ts, t.month_sort = k ∧ k ≠ "Unknown")) ∧
    (∀ (f : RawFill) (lookup : String → Option MarketState),
        ((classifyTrade lookup (decodeFill f)).month_sort = "Unknown" ↔
          (decodeFill f).trade_date = none)) := by
  have hkeys_eq : (month_stats ts).map (fun b => b.month_sort)
      = (monthKeys ts).mergeSort (fun a b => strLe a b) := by
    unfold month_stats
    dsimp only
    rw [List.map_map]
    have hid : ∀ k ∈ (monthKeys ts).mergeSort (fun a b => strLe a b),
        ((fun b => b.month_sort) ∘ (fun k => mkMonthStat k (monthGroup ts k))) k
          = k := fun k _ => rfl
    rw [List.map_congr_left hid]
    simp
  have hsorted : ((monthKeys ts).mergeSort (fun a b => strLe a b)).Pairwise
      (fun a b => strLe a b = true) := by
    apply List.sorted_mergeSort
    · intro a b c h1 h2
      exact charListLe_trans _ _ _ h1 h2
    · intro a b
      exact charListLe_total _ _
  have hnd : ((monthKeys ts).mergeSort (fun a b => strLe a b)).Nodup :=
    ((List.mergeSort_perm _ _).nodup_iff).mpr (nodup_firstDedup _)
  refine ⟨?_, ?_, ?_, ?_⟩
  · rw [hkeys_eq]
    exact hsorted.and hnd
  · intro b hb
    unfold month_stats at hb
    dsimp only at hb
    obtain ⟨k, hk, rfl⟩ := List.mem_map.mp hb
    exact monthKeys_ne_unknown ((List.mergeSort_perm _ _).mem_iff.mp hk)
  · intro k
    have hmem : (∃ b ∈ month_stats ts, b.month_sort = k) ↔
        k ∈ (month_stats ts).map (fun b => b.month_sort) := by
      exact List.mem_map.symm
    rw [hmem, hkeys_eq, (List.mergeSort_perm _ _).mem_iff]
    unfold monthKeys
    rw [mem_firstDedup, List.mem_map]
    constructor
    · rintro ⟨t, htmem, rfl⟩
      have h2 := List.mem_filter.mp htmem
      refine ⟨t, h2.1, rfl, ?_⟩
      simpa using h2.2
    · rintro ⟨t, htmem, rfl, hne⟩
      exact ⟨t, List.mem_filter.mpr ⟨htmem, by simpa using hne⟩, rfl⟩
  · intro f lookup
    rcases hd : (decodeFill f).trade_date with _ | dt
    · constructor
      · intro _; rfl
      · intro _
        simp [classifyTrade, hd]
    · constructor
      · intro h
        exfalso
        have he : (classifyTrade lookup (decodeFill f)).month_sort
            = strftimeSort dt := by
          simp [classifyTrade, hd]
        exact strftimeSort_ne_unknown dt (he ▸ h)
      · intro h
        simp at h

/-- Witness for C8: the dateless fill's classified trade has the
`"Unknown"` month key. -/
theorem month_buckets_ordered_witness :
    (classifyTrade exLookup (decodeFill fillNoDate)).month_sort = "Unknown" :=
  ((month_buckets_ordered []).2.2.2 fillNoDate exLookup).mpr rfl

/-! ## C7: recency window -/

/-- The fixed "now" of the spec's recency test: 2025-06-15T00:00:00Z. -/
def nowEx : Int := PyDateTime.instantUs ⟨2025, 6, 15, 0, 0, 0, 0, some 0⟩

def futDt : PyDateTime := ⟨2025, 6, 20, 0, 0, 0, 0, some 0⟩

def inDt : PyDateTime := ⟨2025, 6, 9, 12, 0, 0, 0, some 0⟩

def outDt : PyDateTime := ⟨2025, 6, 7, 0, 0, 0, 0, some 0⟩

/-- A trade dated five days *after* the fixed now. -/
def futT : CTrade :=
  classifyTrade exLookup
    (decodeFill ⟨some "T3", some "yes", some 1, some 1,
      some "2025-06-20T00:00:00Z"⟩)

/-- A trade inside the trailing window (2025-06-09T12:00:00Z). -/
def inT : CTrade :=
  classifyTrade exLookup
    (decodeFill ⟨some "T3", some "yes", some 1, some 1,
      some "2025-06-09T12:00:00Z"⟩)

/-- A trade before the trailing window (2025-06-07T00:00:00Z). -/
def outT : CTrade :=
  classifyTrade exLookup
    (decodeFill ⟨some "T3", some "yes", some 1, some 1,
      some "2025-06-07T00:00:00Z"⟩)

set_option maxRecDepth 8000 in
/-- C7 counterexample. The recency filter has no upper bound: a trade
dated 2025-06-20 — strictly after the run instant 2025-06-15, hence
outside "the trailing 7-day window ending at the run's current instant" —
is nevertheless included in the bucket. -/
theorem recency_upper_bound_counterexample :
    futT.trade_date = some futDt ∧
    nowEx < futDt.instantUs ∧
    futT ∈ recentFilter nowEx [futT] := by
  with_unfolding_all decide

set_option maxRecDepth 8000 in
/-- C7 (amended). The recency bucket contains exactly the trades
whose parsed `created_at` instant (naive treated as UTC) is at or after
`now − 7 days` — an inclusive lower bound and *no* upper bound, so
future-dated trades are also included; `trades_list` is the member list
sorted by date descending and truncated to the 20 most recent.  With the
fixed now 2025-06-15T00:00:00Z, the trade dated 2025-06-09T12:00:00Z is
included and the one dated 2025-06-07T00:00:00Z is excluded. -/
theorem recency_window_membership (nowUs : Int) (ts : List CTrade) :
    (∀ t : CTrade, t ∈ recentFilter nowUs ts ↔
        t ∈ ts ∧ ∃ dt, t.trade_date = some dt ∧
          nowUs - 7 * 86400000000 ≤ dt.instantUs) ∧
    (recent_stats nowUs ts).trades_list
      = (sortByDateDesc (recentFilter nowUs ts)).take 20 ∧
    (recent_stats nowUs ts).trades_list.length ≤ 20 ∧
    (inT.trade_date = some inDt ∧ nowEx - 7 * 86400000000 ≤ inDt.instantUs ∧
      inT ∈ recentFilter nowEx [inT, outT]) ∧
    (outT.trade_date = some outDt ∧ outDt.instantUs < nowEx - 7 * 86400000000 ∧
      outT ∉ recentFilter nowEx [inT, outT]) := by
  refine ⟨?_, rfl, ?_, ?_, ?_⟩
  · intro t
    unfold recentFilter
    rw [List.mem_filter]
    constructor
    · rintro ⟨h1, h2⟩
      refine ⟨h1, ?_⟩
      rcases hd : t.trade_date with _ | dt
      · rw [hd] at h2
        simp at h2
      · rw [hd] at h2
        exact ⟨dt, rfl, by simpa using h2⟩
    · rintro ⟨h1, dt, hd, hle⟩
      refine ⟨h1, ?_⟩
      rw [hd]
      simpa using hle
  · show ((sortByDateDesc (recentFilter nowUs ts)).take 20).length ≤ 20
    rw [List.length_take]
    exact min_le_left _ _
  · with_unfolding_all decide
  · with_unfolding_all decide

set_option maxRecDepth 8000 in
/-- Witness for C7 (amended): the in-window example trade satisfies the
membership characterization at the fixed now. -/
theorem recency_window_membership_witness :
    inT ∈ [inT, outT] ∧ (∃ dt, inT.trade_date = some dt ∧
      nowEx - 7 * 86400000000 ≤ dt.instantUs) :=
  ((recency_window_membership nowEx [inT, outT]).1 inT).mp
    (by with_unfolding_all decide)

end KalshiDash
